import Mathlib

/-!
# ITKTools: `pxcreatesphere` and `ITKToolsHistogramEqualizeImage`

A shallow embedding of the two source files

* `src/createsphere/createsphere.cxx` (`main`, the `run` macro, `CreateSphere`), and
* `src/histogramequalizeimage/histogramequalizeimage.h`
  (`ITKToolsHistogramEqualizeImage::New` and `::Run`),

followed by theorems about dispatch, argument checking, sphere rasterization and the staged
read / filter / write pipeline.

Conventions of the embedding.

* The arithmetic of the C++ type `double` is a parameter (`DoubleArithmetic`): its values and
  its operations are arbitrary, so what is proved for every arithmetic holds for the rounded
  arithmetic of the machine. Concrete inputs are evaluated in exact rational arithmetic.
* `unsigned int` values are natural numbers; no arithmetic in the embedded code can overflow.
* An `itk::ExceptionObject` thrown by a reader or writer is a value returned by the codec; a
  `try`/`catch` is a `match` on it.
* Output on `std::cerr` and the calls made on ITK objects are recorded in an explicit state.
* Reading `v[i]` past the end of a `std::vector` is undefined behaviour in C++; the embedding
  makes it an explicit outcome.
-/

set_option autoImplicit false

/-- The C++ scalar types that a template parameter (`TComponentType`, or the pixel type of an
`itk::Image`) is instantiated with. -/
inductive CxxType where
  | uchar | char | ushort | short | uint | int | ulong | long | float | double
  deriving DecidableEq, Repr

/-- The spelling of a type as the preprocessor operator `#type` produces it. -/
def CxxType.spelling : CxxType → String
  | .uchar => "unsigned char"
  | .char => "char"
  | .ushort => "unsigned short"
  | .short => "short"
  | .uint => "unsigned int"
  | .int => "int"
  | .ulong => "unsigned long"
  | .long => "long"
  | .float => "float"
  | .double => "double"

/-- An `itk::ExceptionObject`, reduced to the text that `operator<<` prints for it. -/
structure ExceptionObject where
  what : String
  deriving DecidableEq, Repr

/-! ## Part 1. `histogramequalizeimage.h` -/

namespace HistogramEqualizeImage

/-- Modelled from the spec: the runtime value-type tag `itktools::ComponentType` is declared in
`ITKToolsBase.h`, which is not among the sources; it is a closed enumeration of component types
with one extra member for an unknown type. -/
inductive ComponentType where
  | UNKNOWNCOMPONENTTYPE
  | UCHAR | CHAR | USHORT | SHORT | UINT | INT | ULONG | LONG | FLOAT | DOUBLE
  deriving DecidableEq, Repr

/-- The runtime tag that denotes a given C++ type. -/
def componentTypeOf : CxxType → ComponentType
  | .uchar => .UCHAR
  | .char => .CHAR
  | .ushort => .USHORT
  | .short => .SHORT
  | .uint => .UINT
  | .int => .INT
  | .ulong => .ULONG
  | .long => .LONG
  | .float => .FLOAT
  | .double => .DOUBLE

/-- Modelled from the spec: `itktools::IsType<T>( componentType )` comes from `ITKToolsBase.h`,
which is not among the sources. Following "exact match only; no coercion between value types", it
holds exactly when the runtime tag denotes `T`. -/
def IsType (T : CxxType) (componentType : ComponentType) : Bool :=
  decide (componentType = componentTypeOf T)

/-- The class `ITKToolsHistogramEqualizeImage< TComponentType, VDimension >` with the three
members it inherits from `ITKToolsHistogramEqualizeImageBase`. -/
structure ITKToolsHistogramEqualizeImage (TComponentType : CxxType) (VDimension : Nat) where
  m_InputFileName : String := ""
  m_OutputFileName : String := ""
  m_MaskFileName : String := ""
  deriving DecidableEq, Repr

/-- The static member `Self * New( componentType, dim )`: `new Self` on a match, the null
pointer (`none`) otherwise. -/
def New (TComponentType : CxxType) (VDimension : Nat)
    (componentType : ComponentType) (dim : Nat) :
    Option (ITKToolsHistogramEqualizeImage TComponentType VDimension) :=
  if IsType TComponentType componentType && VDimension == dim then
    some {}
  else
    none

/-- The codec boundary: for each of the three `Update()` calls made by `Run`, whether it throws.
`none` means the call returned normally. `writerUpdate` pulls the whole pipeline, so it stands
for the execution of the filter and the write of the output file. -/
structure Codec where
  readerUpdate : String → Option ExceptionObject
  maskReaderUpdate : String → Option ExceptionObject
  writerUpdate : String → Option ExceptionObject

/-- The calls on ITK objects that `Run` makes, in the order of the source. -/
inductive Call where
  | readerUpdate (fileName : String)
  | maskReaderUpdate (fileName : String)
  | enhancerSetInput
  | enhancerSetMask
  | writerSetInput
  | writerSetFileName (fileName : String)
  | writerUpdate
  deriving DecidableEq, Repr

/-- What a run leaves behind: the calls it made and the lines it printed on `std::cerr`. -/
structure World where
  calls : List Call := []
  cerr : List String := []
  deriving DecidableEq, Repr

/-- Record a call. -/
def World.call (w : World) (c : Call) : World :=
  { w with calls := w.calls ++ [c] }

/-- Print one line on `std::cerr`. -/
def World.print (w : World) (line : String) : World :=
  { w with cerr := w.cerr ++ [line] }

/-- The member `void Run( void )`. The function returns no value: the first component of the result is of
type `Unit` on every path, the second is the state it leaves behind. -/
def Run {T : CxxType} {V : Nat} (self : ITKToolsHistogramEqualizeImage T V)
    (codec : Codec) (w : World) : Unit × World :=
  -- Try to read input image
  let w := w.call (.readerUpdate self.m_InputFileName)
  match codec.readerUpdate self.m_InputFileName with
  | some excp =>
    let w := w.print "Error while reading input image."
    let w := w.print excp.what
    ((), w)
  | none =>
    -- Try to read mask image
    let maskStage : Option ExceptionObject × World :=
      if self.m_MaskFileName ≠ "" then
        (codec.maskReaderUpdate self.m_MaskFileName,
          w.call (.maskReaderUpdate self.m_MaskFileName))
      else
        (none, w)
    match maskStage with
    | (some excp, w) =>
      let w := w.print "Error while reading mask image."
      let w := w.print excp.what
      ((), w)
    | (none, w) =>
      -- Setup pipeline and configure its components
      let w := w.call .enhancerSetInput
      let w := if self.m_MaskFileName ≠ "" then w.call .enhancerSetMask else w
      let w := w.call .writerSetInput
      let w := w.call (.writerSetFileName self.m_OutputFileName)
      -- do it.
      let w := w.call .writerUpdate
      match codec.writerUpdate self.m_OutputFileName with
      | some excp =>
        let w := w.print excp.what
        ((), w)
      | none => ((), w)

/-- The terminal states of the pipeline state machine as the specification names them. -/
inductive Stage where
  | ReadInput | ReadMask | WriteOutput
  deriving DecidableEq, Repr

/-- The outcome the specification wants a run to end in. -/
inductive Outcome where
  | Success
  | Failed (stage : Stage)
  deriving DecidableEq, Repr

/-- The calls `Run` makes when no `Update()` of a reader throws, for a given instance. -/
def fullPipeline {T : CxxType} {V : Nat} (self : ITKToolsHistogramEqualizeImage T V) :
    List Call :=
  [Call.readerUpdate self.m_InputFileName] ++
  (if self.m_MaskFileName ≠ "" then [Call.maskReaderUpdate self.m_MaskFileName] else []) ++
  [Call.enhancerSetInput] ++
  (if self.m_MaskFileName ≠ "" then [Call.enhancerSetMask] else []) ++
  [Call.writerSetInput, Call.writerSetFileName self.m_OutputFileName, Call.writerUpdate]

/-- A concrete instance: 3-dimensional `short` images, no mask. -/
def sampleTool : ITKToolsHistogramEqualizeImage .short 3 :=
  { m_InputFileName := "in.mhd", m_OutputFileName := "out.mhd" }

/-- A concrete instance with a mask. -/
def sampleMaskedTool : ITKToolsHistogramEqualizeImage .short 3 :=
  { m_InputFileName := "in.mhd", m_OutputFileName := "out.mhd", m_MaskFileName := "mask.mhd" }

/-- A codec on which every `Update()` returns normally. -/
def codecAllOk : Codec :=
  { readerUpdate := fun _ => none
    maskReaderUpdate := fun _ => none
    writerUpdate := fun _ => none }

/-- A codec on which both reads succeed and the write throws. -/
def codecWriteFails : Codec :=
  { readerUpdate := fun _ => none
    maskReaderUpdate := fun _ => none
    writerUpdate := fun _ => some ⟨"itk::ERROR: could not write the file"⟩ }

/-- A codec on which the read of the mask throws. -/
def codecMaskFails : Codec :=
  { readerUpdate := fun _ => none
    maskReaderUpdate := fun _ => some ⟨"itk::ERROR: could not open the mask"⟩
    writerUpdate := fun _ => none }

end HistogramEqualizeImage

/-! ## Part 2. `createsphere.cxx` -/

namespace PxCreateSphere

/-! ### The arithmetic of `double` -/

/-- The arithmetic of the C++ type `double`, as a parameter: the type `D` of its values and the
operations the program uses on them. Nothing is assumed about the operations, so every theorem
stated for an arbitrary `DoubleArithmetic` holds for the rounded arithmetic of the machine, with
its infinities and NaN, as well as for exact arithmetic. `ofIndex` is the conversion of an index
to `double`, `le` the comparison `<=`. -/
structure DoubleArithmetic (D : Type) where
  zero : D
  one : D
  ofIndex : Nat → D
  add : D → D → D
  sub : D → D → D
  mul : D → D → D
  le : D → D → Bool

/-- Exact arithmetic on the rationals, the instance at which the definitions are evaluated on
concrete inputs. -/
def exactArithmetic : DoubleArithmetic ℚ :=
  { zero := 0
    one := 1
    ofIndex := fun n => (n : ℚ)
    add := fun a b => a + b
    sub := fun a b => a - b
    mul := fun a b => a * b
    le := fun a b => decide (a ≤ b) }

/-! ### The image and the iteration over it -/

/-- An `itk::Image< PixelType, Dimension >` as `CreateSphere` uses it. A cell of the buffer is
`none` until it has been assigned: `Allocate()` does not initialise the memory. The values
`CreateSphere` stores are conversions of a `bool`, kept as integers. -/
structure Image (D : Type) where
  pixelType : CxxType
  dimension : Nat
  size : List Nat
  spacing : List D
  origin : List D
  buffer : List (Option Int)
  deriving DecidableEq, Repr

/-- The number of voxels of a region, `region.GetNumberOfPixels()`: the product of the sizes. -/
def numberOfPixels : List Nat → Nat
  | [] => 1
  | s :: ss => s * numberOfPixels ss

/-- The function `ComputeIndex`: the index of the voxel at a buffer offset, first axis fastest. -/
def ComputeIndex : List Nat → Nat → List Nat
  | [], _ => []
  | s :: ss, offset => (offset % s) :: ComputeIndex ss (offset / s)

/-- The call `image->TransformIndexToPhysicalPoint( index, point )` for an image whose direction
is the identity, which is what `ImageType::New()` gives: each coordinate is computed from the
index of the voxel as `origin[ i ] + index[ i ] * spacing[ i ]`, in the arithmetic of `double`. -/
def TransformIndexToPhysicalPoint {D : Type} (A : DoubleArithmetic D) :
    List D → List D → List Nat → List D
  | o :: os, s :: ss, i :: is =>
    A.add o (A.mul (A.ofIndex i) s) :: TransformIndexToPhysicalPoint A os ss is
  | _, _, _ => []

/-- The function `itk::SphereSpatialFunction::Evaluate`: starting from zero, accumulate over the
axes the square of the difference to the center, subtract the square of the radius, and report
whether the result is at most zero; every operation is one of the arithmetic of `double`. -/
def Evaluate {D : Type} (A : DoubleArithmetic D) (center : List D) (radius : D)
    (position : List D) : Bool :=
  let acc := (List.zipWith (fun p c => A.mul (A.sub p c) (A.sub p c)) position center).foldl
    A.add A.zero
  let acc := A.sub acc (A.mul radius radius)
  A.le acc A.zero

/-- The implicit conversion of the `bool` returned by `Evaluate` to the pixel type in
`it.Set( ... )`: `true` becomes 1 and `false` becomes 0, in every arithmetic type. -/
def boolToPixel (b : Bool) : Int :=
  if b then 1 else 0

/-- The state of the walk over the image: the position of the iterator, the buffer, and the
indices `it.Set` has been called at, in order. -/
structure WalkState where
  offset : Nat
  buffer : List (Option Int)
  visited : List (List Nat)
  deriving DecidableEq, Repr

/-- The loop `while ( !it.IsAtEnd() ) { ... ++it; }`, with a bound on the number of iterations. -/
def walk {D : Type} (A : DoubleArithmetic D) (Size : List Nat) (Spacing origin Center : List D)
    (radius : D) : Nat → WalkState → WalkState
  | 0, st => st
  | fuel + 1, st =>
    if numberOfPixels Size ≤ st.offset then
      st
    else
      let index := ComputeIndex Size st.offset
      let point := TransformIndexToPhysicalPoint A origin Spacing index
      let value := boolToPixel (Evaluate A Center radius point)
      walk A Size Spacing origin Center radius fuel
        { offset := st.offset + 1
          buffer := st.buffer.set st.offset (some value)
          visited := st.visited ++ [index] }

/-- The loop `for ( i = 0; i < Dimension; i++ )` that copies `size[ i ]`, `spacing[ i ]` and
`center[ i ]`. A read past the end of one of the vectors is undefined behaviour: `none`. -/
def parseArguments {D : Type} (size : List Nat) (spacing center : List D) :
    Nat → Option (List Nat × List D × List D)
  | 0 => some ([], [], [])
  | i + 1 =>
    match parseArguments size spacing center i with
    | none => none
    | some (Size, Spacing, Center) =>
      match size[i]?, spacing[i]?, center[i]? with
      | some s, some sp, some c => some (Size ++ [s], Spacing ++ [sp], Center ++ [c])
      | _, _, _ => none

/-- What one call of `CreateSphere` does: the image it built, the indices it assigned, whether
the iterator reached the end, and the exception of `writer->Update()` if there was one. -/
structure SphereRun (D : Type) where
  image : Image D
  visited : List (List Nat)
  atEnd : Bool
  thrown : Option ExceptionObject
  deriving DecidableEq, Repr

/-- The function template `CreateSphere< ImageType >` for `ImageType = itk::Image< type, dim >`.
`writerUpdate` is the codec boundary: whether writing the image to the file throws. The result is
`none` when the argument loop reads past the end of a vector. -/
def CreateSphere {D : Type} (A : DoubleArithmetic D) (type : CxxType) (Dimension : Nat)
    (writerUpdate : String → Image D → Option ExceptionObject)
    (filename : String) (size : List Nat) (spacing center : List D) (radius : D) :
    Option (SphereRun D) :=
  -- Parse the arguments.
  match parseArguments size spacing center Dimension with
  | none => none
  | some (Size, Spacing, Center) =>
    -- Create image.
    let origin : List D := List.replicate Dimension A.zero
    let buffer : List (Option Int) := List.replicate (numberOfPixels Size) none
    -- Walk over the image.
    let final := walk A Size Spacing origin Center radius (numberOfPixels Size)
      { offset := 0, buffer := buffer, visited := [] }
    let image : Image D :=
      { pixelType := type, dimension := Dimension, size := Size, spacing := Spacing,
        origin := origin, buffer := final.buffer }
    -- Write image.
    some { image := image
           visited := final.visited
           atEnd := decide (numberOfPixels Size ≤ final.offset)
           thrown := writerUpdate filename image }

/-! ### `main` -/

/-- Modelled from the spec: `itk::CommandLineArgumentParser` is declared in
`itkCommandLineArgumentParser.h`, which is not among the sources, and the specification keeps
command-line parsing outside its scope. The parser is therefore a parameter: for every key and
every type of argument, the value given on the command line, or `none` when the key is absent. -/
structure CommandLineArgumentParser (D : Type) where
  string : String → Option String
  uintVector : String → Option (List Nat)
  doubleVector : String → Option (List D)
  double : String → Option D
  uint : String → Option Nat

/-- The call `parser->GetCommandLineArgument( key, arg )`: it returns whether the key was given,
and overwrites `arg` only in that case. -/
def GetCommandLineArgument {α : Type} (lookup : String → Option α) (key : String) (arg : α) :
    Bool × α :=
  match lookup key with
  | some value => (true, value)
  | none => (false, arg)

/-- Modelled from the spec: `ReplaceUnderscoreWithSpace` comes from `CommandLineArgumentHelper.h`,
which is not among the sources; it turns the alternate-underscore spelling of a tag into the
canonical one by putting a space in the place of an underscore. -/
def ReplaceUnderscoreWithSpace (arg : String) : String :=
  ⟨arg.data.map (fun ch => if ch = '_' then ' ' else ch)⟩

/-- The lines that `PrintHelp` writes on `std::cout`. -/
def PrintHelp : List String :=
  [ "Usage:", "pxcreatesphere",
    "\t-out\toutputFilename",
    "\t-s\timage size (voxels)",
    "\t[-sp]\timage spacing (mm)",
    "\t-c\tcenter (mm)",
    "\t-r\tradii (mm)",
    "\t[-dim]\tdimension, default 3",
    "\t[-pt]\tpixelType, default short",
    "Supported: 2D, 3D, (unsigned) char, (unsigned) short, float, double." ]

/-- The local variables of `main` after the block "Get arguments". -/
structure Arguments (D : Type) where
  outputFileName : String
  retout : Bool
  size : List Nat
  rets : Bool
  center : List D
  retc : Bool
  radius : D
  retr : Bool
  Dimension : Nat
  retdim : Bool
  PixelType : String
  retpt : Bool
  spacing : List D
  retsp : Bool

/-- The block "Get arguments" of `main`. The variable `radius` is declared without an
initialiser; it is read only after `retr` has been checked, and starts here as zero. -/
def getArguments {D : Type} (A : DoubleArithmetic D) (parser : CommandLineArgumentParser D) :
    Arguments D :=
  let out := GetCommandLineArgument parser.string "-out" ""
  let s := GetCommandLineArgument parser.uintVector "-s" []
  let c := GetCommandLineArgument parser.doubleVector "-c" []
  let r := GetCommandLineArgument parser.double "-r" A.zero
  let dim := GetCommandLineArgument parser.uint "-dim" 3
  let pt := GetCommandLineArgument parser.string "-pt" "short"
  let sp := GetCommandLineArgument parser.doubleVector "-sp" (List.replicate dim.2 A.one)
  { outputFileName := out.2, retout := out.1
    size := s.2, rets := s.1
    center := c.2, retc := c.1
    radius := r.2, retr := r.1
    Dimension := dim.2, retdim := dim.1
    PixelType := pt.2, retpt := pt.1
    spacing := sp.2, retsp := sp.1 }

/-- One call `function< itk::Image< type, dim > >( outputFileName, size, spacing, center,
radius )` made by the macro `run`. -/
structure Invocation (D : Type) where
  type : CxxType
  dim : Nat
  outputFileName : String
  size : List Nat
  spacing : List D
  center : List D
  radius : D
  deriving DecidableEq, Repr

/-- How control stands inside the `try` block of `main`. -/
inductive Flow where
  | running
  | caught (e : ExceptionObject)
  | undefinedBehaviour
  deriving DecidableEq, Repr

/-- The state threaded through the `try` block: the control state, the calls of `CreateSphere`
made so far, and the files written so far. -/
structure TryState (D : Type) where
  flow : Flow
  invocations : List (Invocation D)
  files : List (String × Image D)
  deriving DecidableEq, Repr

/-- The macro `run(function,type,dim)` with `function = CreateSphere`: when the tag and the
dimension match, call the specialization. A statement after a `throw` is not executed. -/
def run {D : Type} (A : DoubleArithmetic D)
    (writerUpdate : String → Image D → Option ExceptionObject) (PixelType : String)
    (Dimension : Nat) (outputFileName : String) (size : List Nat) (spacing center : List D)
    (radius : D) (type : CxxType) (dim : Nat) (st : TryState D) : TryState D :=
  match st.flow with
  | .running =>
    if PixelType == type.spelling && Dimension == dim then
      let call : Invocation D :=
        { type := type, dim := dim, outputFileName := outputFileName, size := size,
          spacing := spacing, center := center, radius := radius }
      let st := { st with invocations := st.invocations ++ [call] }
      match CreateSphere A type dim writerUpdate outputFileName size spacing center radius with
      | none => { st with flow := .undefinedBehaviour }
      | some r =>
        match r.thrown with
        | some e => { st with flow := .caught e }
        | none => { st with files := st.files ++ [(outputFileName, r.image)] }
    else
      st
  | _ => st

/-- The twelve `run(CreateSphere,type,dim)` statements of `main`, in the order of the source. -/
def compiledMatrix : List (CxxType × Nat) :=
  [ (.uchar, 2), (.uchar, 3),
    (.char, 2), (.char, 3),
    (.ushort, 2), (.ushort, 3),
    (.short, 2), (.short, 3),
    (.float, 2), (.float, 3),
    (.double, 2), (.double, 3) ]

/-- The body of the `try` block of `main`: the twelve `run` statements, one after the other. -/
def tryBlock {D : Type} (A : DoubleArithmetic D)
    (writerUpdate : String → Image D → Option ExceptionObject) (PixelType : String)
    (a : Arguments D) : TryState D :=
  compiledMatrix.foldl
    (fun st td => run A writerUpdate PixelType a.Dimension a.outputFileName a.size a.spacing
      a.center a.radius td.1 td.2 st)
    { flow := .running, invocations := [], files := [] }

/-- What an execution of `main` leaves behind. `exitCode` is `none` when the execution ran into
undefined behaviour. -/
structure MainResult (D : Type) where
  exitCode : Option Nat
  cout : List String := []
  cerr : List String := []
  invocations : List (Invocation D) := []
  files : List (String × Image D) := []
  deriving DecidableEq, Repr

/-- The function `main`. `argc` is the argument count, `parser` the answers of the command-line
parser, `writerUpdate` the codec boundary. -/
def main {D : Type} (A : DoubleArithmetic D) (argc : Nat) (parser : CommandLineArgumentParser D)
    (writerUpdate : String → Image D → Option ExceptionObject) : MainResult D :=
  -- Check arguments for help.
  if argc < 5 then
    { exitCode := some 1, cout := PrintHelp }
  else
    -- Get arguments.
    let a := getArguments A parser
    -- Check if the required arguments are given.
    if !a.retout then
      { exitCode := some 1, cerr := ["ERROR: You should specify \"-out\"."] }
    else if !a.rets then
      { exitCode := some 1, cerr := ["ERROR: You should specify \"-s\"."] }
    else if !a.retc then
      { exitCode := some 1, cerr := ["ERROR: You should specify \"-c\"."] }
    else if !a.retr then
      { exitCode := some 1, cerr := ["ERROR: You should specify \"-r\"."] }
    else
      -- Get rid of the possible "_" in PixelType.
      let PixelType := ReplaceUnderscoreWithSpace a.PixelType
      -- Run the program.
      let st := tryBlock A writerUpdate PixelType a
      match st.flow with
      | .caught e =>
        { exitCode := some 1, cerr := ["Caught ITK exception: " ++ e.what],
          invocations := st.invocations, files := st.files }
      | .undefinedBehaviour =>
        { exitCode := none, invocations := st.invocations, files := st.files }
      | .running =>
        -- End program. Return a value.
        { exitCode := some 0, invocations := st.invocations, files := st.files }

/-! ### Concrete command lines -/

/-- A writer that never throws. -/
def writerOk {D : Type} : String → Image D → Option ExceptionObject :=
  fun _ _ => none

/-- The answers of the parser for
`pxcreatesphere -out sphere.mhd -s 5 5 5 -c 2 2 2 -r 1.5`, thirteen arguments with the name of
the program. -/
def parserDefaults : CommandLineArgumentParser ℚ :=
  { string := fun key => if key = "-out" then some "sphere.mhd" else none
    uintVector := fun key => if key = "-s" then some [5, 5, 5] else none
    doubleVector := fun key => if key = "-c" then some [2, 2, 2] else none
    double := fun key => if key = "-r" then some (3 / 2) else none
    uint := fun _ => none }

/-- The answers of the parser for
`pxcreatesphere -out sphere.mhd -s 5 5 5 -c 2 2 2 -r 1.5 -pt int`, fifteen arguments. -/
def parserInt : CommandLineArgumentParser ℚ :=
  { parserDefaults with
    string := fun key =>
      if key = "-out" then some "sphere.mhd" else if key = "-pt" then some "int" else none }

/-- The answers of the parser for
`pxcreatesphere -out sphere.mhd -s 5 5 5 -c 2 2 2 -r 1.5 -pt unsigned_char -dim 3`, seventeen
arguments. -/
def parserUnsignedChar : CommandLineArgumentParser ℚ :=
  { parserDefaults with
    string := fun key =>
      if key = "-out" then some "sphere.mhd"
      else if key = "-pt" then some "unsigned_char" else none
    uint := fun key => if key = "-dim" then some 3 else none }

/-- The answers of the parser for
`pxcreatesphere -out sphere.mhd -s 5 5 -c 2 2 2 -r 1.5`, twelve arguments: two sizes, and the
default dimension. -/
def parserTwoSizes : CommandLineArgumentParser ℚ :=
  { parserDefaults with
    uintVector := fun key => if key = "-s" then some [5, 5] else none }

/-- The answers of the parser for `pxcreatesphere -out sphere.mhd -s 5 5 5 -r 1.5`, nine
arguments: no `-c`. -/
def parserNoCenter : CommandLineArgumentParser ℚ :=
  { parserDefaults with doubleVector := fun _ => none }

/-! ### The vocabulary of the specification -/

/-- The six value types of the specification's data model. -/
def supportedTypes : List CxxType :=
  [.uchar, .char, .ushort, .short, .float, .double]

/-- The range of an integer value type, `none` for the floating-point types. The type `char` is
taken as signed, as the specification does (`int8`). -/
def integerRange : CxxType → Option (Int × Int)
  | .uchar => some (0, 255)
  | .char => some (-128, 127)
  | .ushort => some (0, 65535)
  | .short => some (-32768, 32767)
  | .uint => some (0, 4294967295)
  | .int => some (-2147483648, 2147483647)
  | .ulong => some (0, 18446744073709551615)
  | .long => some (-9223372036854775808, 9223372036854775807)
  | .float => none
  | .double => none

/-- The conversion policy "clamp": a value outside the range of an integer type is replaced by
the nearest bound. -/
def storeClamp (t : CxxType) (v : Int) : Int :=
  match integerRange t with
  | some (lo, hi) => max lo (min hi v)
  | none => v

/-- The conversion policy "wrap": a value is reduced modulo the number of values of an integer
type into its range. -/
def storeWrap (t : CxxType) (v : Int) : Int :=
  match integerRange t with
  | some (lo, hi) => lo + (v - lo) % (hi - lo + 1)
  | none => v

end PxCreateSphere

/-! ## Part 3. Theorems about `histogramequalizeimage.h` -/

namespace HistogramEqualizeImage

theorem componentTypeOf_injective : Function.Injective componentTypeOf := by
  intro a b h
  cases a <;> cases b <;> first | rfl | cases h

theorem New_eq (T : CxxType) (V : Nat) (c : ComponentType) (d : Nat) :
    New T V c d = if c = componentTypeOf T ∧ d = V then some {} else none := by
  unfold New IsType
  by_cases hc : c = componentTypeOf T
  · by_cases hd : V = d
    · subst hd; simp [hc]
    · have hd2 : ¬ d = V := fun h => hd h.symm
      simp [hc, hd, hd2]
  · simp [hc]

theorem New_isSome_iff (T : CxxType) (V : Nat) (c : ComponentType) (d : Nat) :
    (New T V c d).isSome = true ↔ (c = componentTypeOf T ∧ d = V) := by
  rw [New_eq]
  split <;> simp_all

/-- Claim C7. `New( c, d )` of the specialization for `( T, V )` returns a new instance exactly
when the tag `c` denotes `T` and `d` equals `V`, and the null pointer otherwise; among
specializations with pairwise distinct `( T, V )`, at most one returns an instance. -/
theorem New_exact_match :
    (∀ (T : CxxType) (V : Nat) (c : ComponentType) (d : Nat),
      (New T V c d = some {} ↔ (c = componentTypeOf T ∧ d = V)) ∧
      (New T V c d = none ↔ ¬ (c = componentTypeOf T ∧ d = V))) ∧
    (∀ (specs : List (CxxType × Nat)) (c : ComponentType) (d : Nat), specs.Nodup →
      (specs.filter (fun s => (New s.1 s.2 c d).isSome)).length ≤ 1) := by
  refine ⟨fun T V c d => ?_, fun specs c d hnd => ?_⟩
  · rw [New_eq]
    constructor <;> split <;> simp_all
  · have hf := hnd.filter (fun s => (New s.1 s.2 c d).isSome)
    have hall : ∀ s ∈ specs.filter (fun s => (New s.1 s.2 c d).isSome),
        componentTypeOf s.1 = c ∧ s.2 = d := by
      intro s hs
      have h1 := (New_isSome_iff s.1 s.2 c d).1 (List.mem_filter.1 hs).2
      exact ⟨h1.1.symm, h1.2.symm⟩
    cases hl : specs.filter (fun s => (New s.1 s.2 c d).isSome) with
    | nil => simp
    | cons a l =>
      cases l with
      | nil => simp
      | cons b l =>
        exfalso
        rw [hl] at hf hall
        have ha := hall a (by simp)
        have hb := hall b (by simp)
        have hab : a = b :=
          Prod.ext (componentTypeOf_injective (ha.1.trans hb.1.symm)) (ha.2.trans hb.2.symm)
        simp [hab] at hf

/-- Witness for C7: among the two specializations for `short` in 2 and 3 dimensions, at most one
answers the tag `SHORT` with dimension 3. -/
theorem New_exact_match_witness :
    [(CxxType.short, 2), (CxxType.short, 3)].Nodup ∧
    ([(CxxType.short, 2), (CxxType.short, 3)].filter
      (fun s => (New s.1 s.2 ComponentType.SHORT 3).isSome)).length ≤ 1 :=
  ⟨by decide, New_exact_match.2 _ _ _ (by decide)⟩

theorem Run_read_failed {T : CxxType} {V : Nat} (self : ITKToolsHistogramEqualizeImage T V)
    (codec : Codec) (w : World) (e : ExceptionObject)
    (h : codec.readerUpdate self.m_InputFileName = some e) :
    (Run self codec w).2 =
      { calls := w.calls ++ [Call.readerUpdate self.m_InputFileName]
        cerr := w.cerr ++ ["Error while reading input image.", e.what] } := by
  simp [Run, h, World.call, World.print]

theorem Run_mask_failed {T : CxxType} {V : Nat} (self : ITKToolsHistogramEqualizeImage T V)
    (codec : Codec) (w : World) (e : ExceptionObject)
    (h : codec.readerUpdate self.m_InputFileName = none) (hm : self.m_MaskFileName ≠ "")
    (h2 : codec.maskReaderUpdate self.m_MaskFileName = some e) :
    (Run self codec w).2 =
      { calls := w.calls ++ [Call.readerUpdate self.m_InputFileName,
          Call.maskReaderUpdate self.m_MaskFileName]
        cerr := w.cerr ++ ["Error while reading mask image.", e.what] } := by
  simp [Run, h, hm, h2, World.call, World.print]

theorem Run_reads_ok {T : CxxType} {V : Nat} (self : ITKToolsHistogramEqualizeImage T V)
    (codec : Codec) (w : World)
    (h : codec.readerUpdate self.m_InputFileName = none)
    (h2 : self.m_MaskFileName = "" ∨ codec.maskReaderUpdate self.m_MaskFileName = none) :
    (Run self codec w).2 =
      { calls := w.calls ++ fullPipeline self
        cerr := w.cerr ++ (match codec.writerUpdate self.m_OutputFileName with
          | some e => [e.what]
          | none => []) } := by
  by_cases hm : self.m_MaskFileName = ""
  · cases hw : codec.writerUpdate self.m_OutputFileName <;>
      simp [Run, h, hm, hw, World.call, World.print, fullPipeline]
  · have h3 : codec.maskReaderUpdate self.m_MaskFileName = none := by
      cases h2 with
      | inl h => exact absurd h hm
      | inr h => exact h
    cases hw : codec.writerUpdate self.m_OutputFileName <;>
      simp [Run, h, hm, h3, hw, World.call, World.print, fullPipeline]


/-- Claim C5. The write stage is attempted exactly when the primary read succeeded and the mask
file name is empty or the mask read succeeded. When the primary read fails, the only call made is
that read; when the mask read fails, the only calls made are the two reads. -/
theorem Run_write_attempted_iff {T : CxxType} {V : Nat}
    (self : ITKToolsHistogramEqualizeImage T V) (codec : Codec) (w : World) :
    ∃ made : List Call, (Run self codec w).2.calls = w.calls ++ made ∧
      (Call.writerUpdate ∈ made ↔
        (codec.readerUpdate self.m_InputFileName = none ∧
          (self.m_MaskFileName = "" ∨ codec.maskReaderUpdate self.m_MaskFileName = none))) ∧
      (codec.readerUpdate self.m_InputFileName ≠ none →
        made = [Call.readerUpdate self.m_InputFileName]) ∧
      (codec.readerUpdate self.m_InputFileName = none → self.m_MaskFileName ≠ "" →
        codec.maskReaderUpdate self.m_MaskFileName ≠ none →
        made = [Call.readerUpdate self.m_InputFileName,
          Call.maskReaderUpdate self.m_MaskFileName]) := by
  cases h : codec.readerUpdate self.m_InputFileName with
  | some e =>
    refine ⟨[Call.readerUpdate self.m_InputFileName], ?_, ?_, ?_, ?_⟩
    · rw [Run_read_failed self codec w e h]
    · simp
    · intro _; rfl
    · intro h0; cases h0
  | none =>
    by_cases hm : self.m_MaskFileName = ""
    · refine ⟨fullPipeline self, ?_, ?_, ?_, ?_⟩
      · rw [Run_reads_ok self codec w h (Or.inl hm)]
      · simp [fullPipeline, hm]
      · intro h0; exact absurd rfl h0
      · intro _ h1; exact absurd hm h1
    · cases h2 : codec.maskReaderUpdate self.m_MaskFileName with
      | some e =>
        refine ⟨[Call.readerUpdate self.m_InputFileName,
          Call.maskReaderUpdate self.m_MaskFileName], ?_, ?_, ?_, ?_⟩
        · rw [Run_mask_failed self codec w e h hm h2]
        · simp [hm]
        · intro h0; exact absurd rfl h0
        · intro _ _ _; rfl
      | none =>
        refine ⟨fullPipeline self, ?_, ?_, ?_, ?_⟩
        · rw [Run_reads_ok self codec w h (Or.inr h2)]
        · simp [fullPipeline, hm]
        · intro h0; exact absurd rfl h0
        · intro _ _ h1; exact absurd rfl h1

/-- Witness for C5: with a mask whose read throws, `Run` makes the two reads and nothing else. -/
theorem Run_write_attempted_iff_witness :
    ∃ made : List Call,
      (Run sampleMaskedTool codecMaskFails {}).2.calls = ({} : World).calls ++ made ∧
      (Call.writerUpdate ∈ made ↔
        (codecMaskFails.readerUpdate sampleMaskedTool.m_InputFileName = none ∧
          (sampleMaskedTool.m_MaskFileName = "" ∨
            codecMaskFails.maskReaderUpdate sampleMaskedTool.m_MaskFileName = none))) ∧
      (codecMaskFails.readerUpdate sampleMaskedTool.m_InputFileName ≠ none →
        made = [Call.readerUpdate sampleMaskedTool.m_InputFileName]) ∧
      (codecMaskFails.readerUpdate sampleMaskedTool.m_InputFileName = none →
        sampleMaskedTool.m_MaskFileName ≠ "" →
        codecMaskFails.maskReaderUpdate sampleMaskedTool.m_MaskFileName ≠ none →
        made = [Call.readerUpdate sampleMaskedTool.m_InputFileName,
          Call.maskReaderUpdate sampleMaskedTool.m_MaskFileName]) :=
  Run_write_attempted_iff sampleMaskedTool codecMaskFails {}

/-- Counterexample for C6. `Run` returns `void`: on the concrete instance, no observation of the
value returned by `Run` tells the run whose write failed from the run that succeeded. -/
theorem Run_write_failure_not_distinguishable :
    ¬ ∃ observe : Unit → Outcome,
      observe (Run sampleTool codecWriteFails {}).1 = Outcome.Failed Stage.WriteOutput ∧
      observe (Run sampleTool codecAllOk {}).1 = Outcome.Success := by
  rintro ⟨observe, h1, h2⟩
  have e : (Run sampleTool codecWriteFails {}).1 = (Run sampleTool codecAllOk {}).1 := rfl
  rw [e, h2] at h1
  cases h1

/-- Claim C6 as amended. When both reads succeed and the write throws, `Run` makes every call of
the pipeline up to and including the write, prints the text of the exception as one line on
`std::cerr`, and returns; the value it returns is the one a successful run returns. -/
theorem Run_write_failure_reported_on_cerr {T : CxxType} {V : Nat}
    (self : ITKToolsHistogramEqualizeImage T V) (codec codecOk : Codec) (w : World)
    (e : ExceptionObject)
    (hread : codec.readerUpdate self.m_InputFileName = none)
    (hmask : self.m_MaskFileName = "" ∨ codec.maskReaderUpdate self.m_MaskFileName = none)
    (hwrite : codec.writerUpdate self.m_OutputFileName = some e) :
    (Run self codec w).2.calls = w.calls ++ fullPipeline self ∧
    (Run self codec w).2.cerr = w.cerr ++ [e.what] ∧
    (Run self codec w).1 = (Run self codecOk w).1 := by
  rw [Run_reads_ok self codec w hread hmask, hwrite]
  exact ⟨rfl, rfl, rfl⟩

/-- Witness for C6 as amended, on the concrete instance whose write throws. -/
theorem Run_write_failure_reported_on_cerr_witness :
    (Run sampleTool codecWriteFails {}).2.calls = ({} : World).calls ++ fullPipeline sampleTool ∧
    (Run sampleTool codecWriteFails {}).2.cerr =
      ({} : World).cerr ++ ["itk::ERROR: could not write the file"] ∧
    (Run sampleTool codecWriteFails {}).1 = (Run sampleTool codecAllOk {}).1 :=
  Run_write_failure_reported_on_cerr sampleTool codecWriteFails codecAllOk {} ⟨_⟩ rfl
    (Or.inl rfl) rfl

end HistogramEqualizeImage
/-! ## Part 4. Theorems about `main` of `createsphere.cxx` -/

namespace PxCreateSphere

theorem spelling_injective : Function.Injective CxxType.spelling := by
  intro a b h
  cases a <;> cases b <;> first | rfl | exact absurd h (by decide)

theorem mem_compiledMatrix_iff (t : CxxType) (d : Nat) :
    (t, d) ∈ compiledMatrix ↔ t ∈ supportedTypes ∧ (d = 2 ∨ d = 3) := by
  cases t <;> simp [compiledMatrix, supportedTypes]

theorem compiledMatrix_nodup : compiledMatrix.Nodup := by
  decide

theorem run_no_match {D : Type} (A : DoubleArithmetic D) (w : String → Image D → Option ExceptionObject) (pt : String) (dm : Nat)
    (out : String) (size : List Nat) (sp c : List D) (r : D) (t : CxxType) (d : Nat)
    (st : TryState D) (h : ¬ (pt = t.spelling ∧ dm = d)) :
    run A w pt dm out size sp c r t d st = st := by
  unfold run
  have h2 : (pt == t.spelling && dm == d) = false := by
    simpa [Bool.and_eq_true, beq_iff_eq] using h
  split
  · simp [h2]
  · rfl

theorem run_not_running {D : Type} (A : DoubleArithmetic D) (w : String → Image D → Option ExceptionObject) (pt : String) (dm : Nat)
    (out : String) (size : List Nat) (sp c : List D) (r : D) (t : CxxType) (d : Nat)
    (st : TryState D) (h : st.flow ≠ Flow.running) :
    run A w pt dm out size sp c r t d st = st := by
  unfold run
  split
  · next h2 => exact absurd h2 h
  · rfl

theorem run_match_invocations {D : Type} (A : DoubleArithmetic D) (w : String → Image D → Option ExceptionObject) (dm : Nat)
    (out : String) (size : List Nat) (sp c : List D) (r : D) (t : CxxType)
    (st : TryState D) (h : st.flow = Flow.running) :
    (run A w t.spelling dm out size sp c r t dm st).invocations =
      st.invocations ++ [{ type := t, dim := dm, outputFileName := out, size := size,
                           spacing := sp, center := c, radius := r }] := by
  unfold run
  rw [h]
  simp only [beq_self_eq_true, Bool.and_self, if_true]
  cases CreateSphere A t dm w out size sp c r with
  | none => rfl
  | some res =>
    cases hth : res.thrown <;> simp [hth]

theorem foldl_run_no_match {D : Type} (A : DoubleArithmetic D) (w : String → Image D → Option ExceptionObject) (pt : String) (dm : Nat)
    (out : String) (size : List Nat) (sp c : List D) (r : D) (l : List (CxxType × Nat))
    (st : TryState D) (h : ∀ td ∈ l, ¬ (pt = td.1.spelling ∧ dm = td.2)) :
    l.foldl (fun st td => run A w pt dm out size sp c r td.1 td.2 st) st = st := by
  induction l generalizing st with
  | nil => rfl
  | cons a l ih =>
    rw [List.foldl_cons, run_no_match A w pt dm out size sp c r a.1 a.2 st (h a (by simp))]
    exact ih st (fun td htd => h td (by simp [htd]))

theorem foldl_run_match {D : Type} (A : DoubleArithmetic D) (w : String → Image D → Option ExceptionObject) (dm : Nat)
    (out : String) (size : List Nat) (sp c : List D) (r : D) (t : CxxType)
    (l : List (CxxType × Nat)) (st : TryState D) (hnd : l.Nodup) (hmem : (t, dm) ∈ l) :
    l.foldl (fun st td => run A w t.spelling dm out size sp c r td.1 td.2 st) st =
      run A w t.spelling dm out size sp c r t dm st := by
  induction l generalizing st with
  | nil => cases hmem
  | cons a l ih =>
    rw [List.foldl_cons]
    have hnd2 := List.nodup_cons.1 hnd
    by_cases ha : a = (t, dm)
    · subst ha
      apply foldl_run_no_match
      intro td htd hm
      have e : td = (t, dm) := Prod.ext (spelling_injective hm.1.symm) hm.2.symm
      exact hnd2.1 (e ▸ htd)
    · have hmem2 : (t, dm) ∈ l := by
        rcases List.mem_cons.1 hmem with h | h
        · exact absurd h.symm ha
        · exact h
      rw [run_no_match A w t.spelling dm out size sp c r a.1 a.2 st]
      · exact ih st hnd2.2 hmem2
      · intro hm
        exact ha (Prod.ext (spelling_injective hm.1.symm) hm.2.symm)

theorem tryBlock_no_match {D : Type} (A : DoubleArithmetic D) (w : String → Image D → Option ExceptionObject) (pt : String)
    (a : Arguments D) (h : ∀ td ∈ compiledMatrix, ¬ (pt = td.1.spelling ∧ a.Dimension = td.2)) :
    tryBlock A w pt a = { flow := .running, invocations := [], files := [] } :=
  foldl_run_no_match A w pt a.Dimension a.outputFileName a.size a.spacing a.center a.radius
    compiledMatrix _ h

theorem tryBlock_match {D : Type} (A : DoubleArithmetic D) (w : String → Image D → Option ExceptionObject) (t : CxxType)
    (a : Arguments D) (h : (t, a.Dimension) ∈ compiledMatrix) :
    tryBlock A w t.spelling a =
      run A w t.spelling a.Dimension a.outputFileName a.size a.spacing a.center a.radius
        t a.Dimension { flow := .running, invocations := [], files := [] } :=
  foldl_run_match A w a.Dimension a.outputFileName a.size a.spacing a.center a.radius t
    compiledMatrix _ compiledMatrix_nodup h

theorem getArguments_required {D : Type} (A : DoubleArithmetic D) (parser : CommandLineArgumentParser D) (out : String)
    (s : List Nat) (c : List D) (r : D)
    (hout : parser.string "-out" = some out) (hs : parser.uintVector "-s" = some s)
    (hc : parser.doubleVector "-c" = some c) (hr : parser.double "-r" = some r) :
    (getArguments A parser).retout = true ∧ (getArguments A parser).outputFileName = out ∧
    (getArguments A parser).rets = true ∧ (getArguments A parser).size = s ∧
    (getArguments A parser).retc = true ∧ (getArguments A parser).center = c ∧
    (getArguments A parser).retr = true ∧ (getArguments A parser).radius = r := by
  simp [getArguments, GetCommandLineArgument, hout, hs, hc, hr]

theorem main_invocations {D : Type} (A : DoubleArithmetic D) (argc : Nat) (parser : CommandLineArgumentParser D)
    (w : String → Image D → Option ExceptionObject) (out : String)
    (s : List Nat) (c : List D) (r : D) (hargc : 5 ≤ argc)
    (hout : parser.string "-out" = some out) (hs : parser.uintVector "-s" = some s)
    (hc : parser.doubleVector "-c" = some c) (hr : parser.double "-r" = some r) :
    (main A argc parser w).invocations =
      (tryBlock A w (ReplaceUnderscoreWithSpace (getArguments A parser).PixelType)
        (getArguments A parser)).invocations := by
  obtain ⟨h1, -, h2, -, h3, -, h4, -⟩ := getArguments_required A parser out s c r hout hs hc hr
  unfold main
  simp only [Nat.not_lt.2 hargc, if_false, h1, h2, h3, h4, Bool.not_true]
  simp only [Bool.false_eq_true, if_false]
  split <;> rfl


theorem main_invocations_cases {D : Type} (A : DoubleArithmetic D) (argc : Nat) (parser : CommandLineArgumentParser D)
    (w : String → Image D → Option ExceptionObject) (out : String)
    (s : List Nat) (c : List D) (r : D) (hargc : 5 ≤ argc)
    (hout : parser.string "-out" = some out) (hs : parser.uintVector "-s" = some s)
    (hc : parser.doubleVector "-c" = some c) (hr : parser.double "-r" = some r) :
    ((∀ td ∈ compiledMatrix,
        ¬ (ReplaceUnderscoreWithSpace (getArguments A parser).PixelType = td.1.spelling ∧
           (getArguments A parser).Dimension = td.2)) ∧
      (main A argc parser w).invocations = []) ∨
    (∃ t : CxxType, (t, (getArguments A parser).Dimension) ∈ compiledMatrix ∧
      ReplaceUnderscoreWithSpace (getArguments A parser).PixelType = t.spelling ∧
      (main A argc parser w).invocations =
        [{ type := t, dim := (getArguments A parser).Dimension, outputFileName := out, size := s,
           spacing := (getArguments A parser).spacing, center := c, radius := r }]) := by
  obtain ⟨-, h1, -, h2, -, h3, -, h4⟩ := getArguments_required A parser out s c r hout hs hc hr
  rw [main_invocations A argc parser w out s c r hargc hout hs hc hr]
  by_cases h : ∀ td ∈ compiledMatrix,
      ¬ (ReplaceUnderscoreWithSpace (getArguments A parser).PixelType = td.1.spelling ∧
         (getArguments A parser).Dimension = td.2)
  · left
    exact ⟨h, by rw [tryBlock_no_match A w _ _ h]⟩
  · right
    push_neg at h
    obtain ⟨⟨t, d⟩, hmem, htag, hd⟩ := h
    simp only at htag hd
    subst hd
    refine ⟨t, hmem, htag, ?_⟩
    rw [htag, tryBlock_match A w t _ hmem, run_match_invocations _ _ _ _ _ _ _ _ _ _ rfl,
      h1, h2, h3, h4]
    rfl

/-- Claim C1. With `argc` at least 5 and the four required arguments present: when the tag
(after the replacement of underscores) and the dimension are one of the twelve pairs of
{unsigned char, char, unsigned short, short, float, double} x {2, 3}, `main` calls exactly one
specialization of `CreateSphere`, once, and it is the one for that type and dimension; for any
other pair `main` calls no specialization. -/
theorem main_dispatch {D : Type} (A : DoubleArithmetic D) (argc : Nat) (parser : CommandLineArgumentParser D)
    (w : String → Image D → Option ExceptionObject) (out : String)
    (s : List Nat) (c : List D) (r : D) (hargc : 5 ≤ argc)
    (hout : parser.string "-out" = some out) (hs : parser.uintVector "-s" = some s)
    (hc : parser.doubleVector "-c" = some c) (hr : parser.double "-r" = some r) :
    (∀ (t : CxxType) (d : Nat), t ∈ supportedTypes → (d = 2 ∨ d = 3) →
      ReplaceUnderscoreWithSpace (getArguments A parser).PixelType = t.spelling →
      (getArguments A parser).Dimension = d →
      (main A argc parser w).invocations =
        [{ type := t, dim := d, outputFileName := out, size := s,
           spacing := (getArguments A parser).spacing, center := c, radius := r }]) ∧
    ((¬ ∃ (t : CxxType) (d : Nat), t ∈ supportedTypes ∧ (d = 2 ∨ d = 3) ∧
        ReplaceUnderscoreWithSpace (getArguments A parser).PixelType = t.spelling ∧
        (getArguments A parser).Dimension = d) →
      (main A argc parser w).invocations = []) := by
  have hcases := main_invocations_cases A argc parser w out s c r hargc hout hs hc hr
  constructor
  · intro t d ht hd htag hdim
    rcases hcases with ⟨hno, -⟩ | ⟨t2, -, htag2, hinv⟩
    · exact absurd ⟨htag, hdim⟩ (hno (t, d) ((mem_compiledMatrix_iff t d).2 ⟨ht, hd⟩))
    · have e : t2 = t := spelling_injective (htag2.symm.trans htag)
      rw [hinv, e, hdim]
  · intro hno
    rcases hcases with ⟨-, hinv⟩ | ⟨t2, hmem, htag2, -⟩
    · exact hinv
    · have h2 := (mem_compiledMatrix_iff _ _).1 hmem
      exact absurd ⟨t2, _, h2.1, h2.2, htag2, rfl⟩ hno

/-- Witness for C1: `-pt unsigned_char -dim 3` calls `CreateSphere< unsigned char, 3 >`, once. -/
theorem main_dispatch_witness :
    (main exactArithmetic 17 parserUnsignedChar writerOk).invocations =
      [{ type := CxxType.uchar, dim := 3, outputFileName := "sphere.mhd", size := [5, 5, 5],
         spacing := (getArguments exactArithmetic parserUnsignedChar).spacing, center := [2, 2, 2],
         radius := 3 / 2 }] :=
  (main_dispatch exactArithmetic 17 parserUnsignedChar writerOk "sphere.mhd" [5, 5, 5] [2, 2, 2] (3 / 2)
    (by decide) rfl rfl rfl rfl).1 CxxType.uchar 3 (by decide) (Or.inr rfl) (by decide) rfl

/-- Claim C2, evaluated on the failing input `-out sphere.mhd -s 5 5 5 -c 2 2 2 -r 1.5 -pt int`:
the pair (int, 3) is not compiled, no specialization is called, no file is written, nothing is
printed, and `main` returns exit code 0. -/
theorem main_unsupported_exit_code :
    (main exactArithmetic 15 parserInt writerOk).exitCode = some 0 ∧
    (main exactArithmetic 15 parserInt writerOk).invocations = [] ∧
    (main exactArithmetic 15 parserInt writerOk).files = [] ∧
    (main exactArithmetic 15 parserInt writerOk).cerr = [] := by
  decide

/-- Claim C4. When `argc` is below 5, or one of `-out`, `-s`, `-c`, `-r` is absent, `main`
returns exit code 1, calls no specialization of `CreateSphere` and writes no file. -/
theorem main_missing_required {D : Type} (A : DoubleArithmetic D) (argc : Nat) (parser : CommandLineArgumentParser D)
    (w : String → Image D → Option ExceptionObject)
    (h : argc < 5 ∨ parser.string "-out" = none ∨ parser.uintVector "-s" = none ∨
      parser.doubleVector "-c" = none ∨ parser.double "-r" = none) :
    (main A argc parser w).exitCode = some 1 ∧
    (main A argc parser w).invocations = [] ∧
    (main A argc parser w).files = [] := by
  unfold main
  by_cases hargc : argc < 5
  · simp [hargc]
  · simp only [hargc, if_false]
    have h2 := h.resolve_left hargc
    cases hout : parser.string "-out" <;> cases hs : parser.uintVector "-s" <;>
      cases hc : parser.doubleVector "-c" <;> cases hr : parser.double "-r" <;>
      simp_all [getArguments, GetCommandLineArgument]

/-- Witness for C4: a command line without `-c`. -/
theorem main_missing_required_witness :
    (main exactArithmetic 9 parserNoCenter writerOk).exitCode = some 1 ∧
    (main exactArithmetic 9 parserNoCenter writerOk).invocations = [] ∧
    (main exactArithmetic 9 parserNoCenter writerOk).files = [] :=
  main_missing_required exactArithmetic 9 parserNoCenter writerOk (Or.inr (Or.inr (Or.inr (Or.inl rfl))))

/-- Claim C8. With the required arguments present: without `-dim` the dimension used for
dispatch is 3; without `-pt` the tag used for dispatch is `short`; without `-sp` the spacing has
`Dimension` entries, each 1, and this is the spacing every called specialization receives; and
with `-dim`, `-pt` and `-sp` all absent, `main` calls exactly `CreateSphere< short, 3 >` with
spacing (1, 1, 1). -/
theorem main_defaults {D : Type} (A : DoubleArithmetic D) (argc : Nat) (parser : CommandLineArgumentParser D)
    (w : String → Image D → Option ExceptionObject) (out : String)
    (s : List Nat) (c : List D) (r : D) (hargc : 5 ≤ argc)
    (hout : parser.string "-out" = some out) (hs : parser.uintVector "-s" = some s)
    (hc : parser.doubleVector "-c" = some c) (hr : parser.double "-r" = some r) :
    (parser.uint "-dim" = none →
      (getArguments A parser).Dimension = 3 ∧
      ∀ inv ∈ (main A argc parser w).invocations, inv.dim = 3) ∧
    (parser.string "-pt" = none →
      ReplaceUnderscoreWithSpace (getArguments A parser).PixelType = "short" ∧
      ∀ inv ∈ (main A argc parser w).invocations, inv.type = CxxType.short) ∧
    (parser.doubleVector "-sp" = none →
      (getArguments A parser).spacing = List.replicate (getArguments A parser).Dimension A.one ∧
      ∀ inv ∈ (main A argc parser w).invocations,
        inv.spacing = List.replicate inv.dim A.one ∧ inv.spacing.length = inv.dim) ∧
    (parser.uint "-dim" = none → parser.string "-pt" = none →
      parser.doubleVector "-sp" = none →
      (main A argc parser w).invocations =
        [{ type := CxxType.short, dim := 3, outputFileName := out, size := s,
           spacing := [A.one, A.one, A.one], center := c, radius := r }]) := by
  have hcases := main_invocations_cases A argc parser w out s c r hargc hout hs hc hr
  have hD : parser.uint "-dim" = none → (getArguments A parser).Dimension = 3 := by
    intro h; simp [getArguments, GetCommandLineArgument, h]
  have hP : parser.string "-pt" = none →
      ReplaceUnderscoreWithSpace (getArguments A parser).PixelType = "short" := by
    intro h
    have e : (getArguments A parser).PixelType = "short" := by
      simp [getArguments, GetCommandLineArgument, h]
    rw [e]; decide
  have hS : parser.doubleVector "-sp" = none →
      (getArguments A parser).spacing = List.replicate (getArguments A parser).Dimension A.one := by
    intro h; simp [getArguments, GetCommandLineArgument, h]
  refine ⟨fun h => ⟨hD h, ?_⟩, fun h => ⟨hP h, ?_⟩, fun h => ⟨hS h, ?_⟩, fun h1 h2 h3 => ?_⟩
  · intro inv hinv
    rcases hcases with ⟨-, e⟩ | ⟨t, -, -, e⟩
    · rw [e] at hinv; cases hinv
    · rw [e] at hinv
      rw [List.mem_singleton.1 hinv]
      exact hD h
  · intro inv hinv
    rcases hcases with ⟨-, e⟩ | ⟨t, -, htag, e⟩
    · rw [e] at hinv; cases hinv
    · rw [e] at hinv
      rw [List.mem_singleton.1 hinv]
      exact spelling_injective (htag.symm.trans (hP h))
  · intro inv hinv
    rcases hcases with ⟨-, e⟩ | ⟨t, -, -, e⟩
    · rw [e] at hinv; cases hinv
    · rw [e] at hinv
      rw [List.mem_singleton.1 hinv]
      simp [hS h]
  · rcases hcases with ⟨hno, -⟩ | ⟨t, -, htag, e⟩
    · exact absurd ⟨hP h2, hD h1⟩ (hno (CxxType.short, 3) (by decide))
    · have et : t = CxxType.short := spelling_injective (htag.symm.trans (hP h2))
      rw [e, et, hS h3, hD h1]
      rfl

/-- Witness for C8: `pxcreatesphere -out sphere.mhd -s 5 5 5 -c 2 2 2 -r 1.5` calls
`CreateSphere< short, 3 >` with spacing (1, 1, 1). -/
theorem main_defaults_witness :
    (main exactArithmetic 13 parserDefaults writerOk).invocations =
      [{ type := CxxType.short, dim := 3, outputFileName := "sphere.mhd", size := [5, 5, 5],
         spacing := [1, 1, 1], center := [2, 2, 2], radius := 3 / 2 }] :=
  (main_defaults exactArithmetic 13 parserDefaults writerOk "sphere.mhd" [5, 5, 5] [2, 2, 2] (3 / 2)
    (by decide) rfl rfl rfl rfl).2.2.2 rfl rfl rfl

/-- Claim C9, evaluated on the failing input `-out sphere.mhd -s 5 5 -c 2 2 2 -r 1.5`: `main`
calls `CreateSphere< short, 3 >` with a size vector of two entries, and the argument loop of
`CreateSphere` reads `size[ 2 ]` past its end. -/
theorem main_passes_short_size_vector :
    (main exactArithmetic 12 parserTwoSizes writerOk).invocations.map
      (fun inv => (inv.type, inv.dim, inv.size, inv.spacing.length, inv.center.length)) =
      [(CxxType.short, 3, [5, 5], 3, 3)] ∧
    (∀ inv ∈ (main exactArithmetic 12 parserTwoSizes writerOk).invocations,
      inv.size[2]? = none ∧
      CreateSphere exactArithmetic inv.type inv.dim writerOk inv.outputFileName inv.size inv.spacing inv.center
        inv.radius = none) ∧
    (main exactArithmetic 12 parserTwoSizes writerOk).exitCode = none ∧
    (main exactArithmetic 12 parserTwoSizes writerOk).files = [] := by
  decide

end PxCreateSphere
/-! ## Part 5. Theorems about `CreateSphere` -/

namespace PxCreateSphere

theorem parseArguments_of_le {D : Type} (size : List Nat) (spacing center : List D) (n : Nat)
    (hs : n ≤ size.length) (hsp : n ≤ spacing.length) (hc : n ≤ center.length) :
    parseArguments size spacing center n =
      some (size.take n, spacing.take n, center.take n) := by
  induction n with
  | zero => simp [parseArguments]
  | succ n ih =>
    have h1 : n < size.length := hs
    have h2 : n < spacing.length := hsp
    have h3 : n < center.length := hc
    simp only [parseArguments, ih (Nat.le_of_lt h1) (Nat.le_of_lt h2) (Nat.le_of_lt h3)]
    rw [List.getElem?_eq_getElem h1, List.getElem?_eq_getElem h2, List.getElem?_eq_getElem h3]
    simp only [List.take_succ, List.getElem?_eq_getElem h1, List.getElem?_eq_getElem h2,
      List.getElem?_eq_getElem h3, Option.toList]

theorem parseArguments_lengths {D : Type} (size : List Nat) (spacing center : List D) (n : Nat)
    (Size : List Nat) (Spacing Center : List D)
    (h : parseArguments size spacing center n = some (Size, Spacing, Center)) :
    n ≤ size.length ∧ n ≤ spacing.length ∧ n ≤ center.length := by
  induction n generalizing Size Spacing Center with
  | zero => simp
  | succ n ih =>
    simp only [parseArguments] at h
    cases hp : parseArguments size spacing center n with
    | none => simp [hp] at h
    | some p =>
      obtain ⟨S, Sp, C⟩ := p
      have := ih S Sp C hp
      rw [hp] at h
      simp only at h
      cases h1 : size[n]? with
      | none => simp [h1] at h
      | some a =>
        cases h2 : spacing[n]? with
        | none => simp [h1, h2] at h
        | some b =>
          cases h3 : center[n]? with
          | none => simp [h1, h2, h3] at h
          | some c =>
            have l1 := (List.getElem?_eq_some.1 h1).1
            have l2 := (List.getElem?_eq_some.1 h2).1
            have l3 := (List.getElem?_eq_some.1 h3).1
            omega

/-- The invariant of the loop over the image. -/
theorem walk_spec {D : Type} (A : DoubleArithmetic D) (Size : List Nat) (Spacing origin Center : List D) (radius : D)
    (fuel : Nat) (st : WalkState)
    (hfuel : st.offset + fuel = numberOfPixels Size)
    (hlen : st.buffer.length = numberOfPixels Size) :
    (walk A Size Spacing origin Center radius fuel st).offset = numberOfPixels Size ∧
    (walk A Size Spacing origin Center radius fuel st).visited =
      st.visited ++ (List.range' st.offset fuel).map (ComputeIndex Size) ∧
    (walk A Size Spacing origin Center radius fuel st).buffer.length = numberOfPixels Size ∧
    ∀ k, (walk A Size Spacing origin Center radius fuel st).buffer[k]? =
      if st.offset ≤ k ∧ k < numberOfPixels Size then
        some (some (boolToPixel (Evaluate A Center radius
          (TransformIndexToPhysicalPoint A origin Spacing (ComputeIndex Size k)))))
      else st.buffer[k]? := by
  induction fuel generalizing st with
  | zero =>
    simp only [walk, Nat.add_zero] at hfuel ⊢
    refine ⟨hfuel, by simp, hlen, fun k => ?_⟩
    rw [if_neg]
    omega
  | succ fuel ih =>
    have hlt : ¬ numberOfPixels Size ≤ st.offset := by omega
    simp only [walk, hlt, if_false]
    obtain ⟨h1, h2, h3, h4⟩ := ih
      { offset := st.offset + 1
        buffer := st.buffer.set st.offset (some (boolToPixel (Evaluate A Center radius
          (TransformIndexToPhysicalPoint A origin Spacing (ComputeIndex Size st.offset)))))
        visited := st.visited ++ [ComputeIndex Size st.offset] }
      (by simp only; omega) (by simp only [List.length_set]; exact hlen)
    refine ⟨h1, ?_, h3, fun k => ?_⟩
    · rw [h2]
      simp [List.range'_succ]
    · rw [h4 k]
      simp only
      by_cases hk : st.offset = k
      · subst hk
        have hlt2 : st.offset < st.buffer.length := by omega
        have hlt3 : st.offset < numberOfPixels Size := by omega
        simp [List.getElem?_set, hlt2, hlt3]
      · rw [List.getElem?_set_ne hk]
        by_cases hk2 : st.offset + 1 ≤ k ∧ k < numberOfPixels Size
        · rw [if_pos hk2, if_pos ⟨by omega, hk2.2⟩]
        · rw [if_neg hk2, if_neg (by omega)]


/-- What a call of `CreateSphere` returns when the three vectors have at least `Dimension`
entries: the loop reaches the end, visits the offsets in order, and leaves in each cell the
value of the sphere function at the point of the index of that cell. -/
theorem CreateSphere_run {D : Type} (A : DoubleArithmetic D) (type : CxxType) (N : Nat)
    (w : String → Image D → Option ExceptionObject) (file : String) (size : List Nat)
    (spacing center : List D) (radius : D)
    (hs : N ≤ size.length) (hsp : N ≤ spacing.length) (hc : N ≤ center.length) :
    ∃ r : SphereRun D, CreateSphere A type N w file size spacing center radius = some r ∧
      r.image.pixelType = type ∧ r.image.dimension = N ∧
      r.image.size = size.take N ∧ r.image.spacing = spacing.take N ∧
      r.image.origin = List.replicate N A.zero ∧ r.atEnd = true ∧
      r.thrown = w file r.image ∧
      r.visited =
        (List.range (numberOfPixels (size.take N))).map (ComputeIndex (size.take N)) ∧
      r.image.buffer.length = numberOfPixels (size.take N) ∧
      ∀ k, k < numberOfPixels (size.take N) →
        r.image.buffer[k]? = some (some (boolToPixel (Evaluate A (center.take N) radius
          (TransformIndexToPhysicalPoint A (List.replicate N A.zero) (spacing.take N)
            (ComputeIndex (size.take N) k))))) := by
  obtain ⟨h1, h2, h3, h4⟩ := walk_spec A (size.take N) (spacing.take N) (List.replicate N A.zero)
    (center.take N) radius (numberOfPixels (size.take N))
    { offset := 0, buffer := List.replicate (numberOfPixels (size.take N)) none, visited := [] }
    (by simp) (by simp)
  refine ⟨_, by rw [CreateSphere, parseArguments_of_le size spacing center N hs hsp hc],
    rfl, rfl, rfl, rfl, rfl, ?_, rfl, ?_, h3, fun k hk => ?_⟩
  · simp only [h1, le_refl, decide_True]
  · simp only [h2, List.nil_append, List.range_eq_range']
  · simp only [h4 k, Nat.zero_le, true_and, hk, if_true]


theorem boolToPixel_cases (b : Bool) : boolToPixel b = 0 ∨ boolToPixel b = 1 := by
  cases b
  · left; rfl
  · right; rfl

theorem store_zero_one (t : CxxType) (ht : t ∈ supportedTypes) (v : Int)
    (hv : v = 0 ∨ v = 1) :
    storeClamp t v = v ∧ storeWrap t v = v ∧
    ∀ lo hi, integerRange t = some (lo, hi) → lo ≤ v ∧ v ≤ hi := by
  rcases hv with rfl | rfl <;> cases t <;>
    first
      | (exfalso; revert ht; decide)
      | (refine ⟨by decide, by decide, ?_⟩
         intro lo hi h
         simp only [integerRange, Option.some.injEq, Prod.mk.injEq] at h
         obtain ⟨rfl, rfl⟩ := h
         decide)
      | (refine ⟨by decide, by decide, ?_⟩
         intro lo hi h
         simp [integerRange] at h)

/-- Claim C10. For each of the six supported value types, when `CreateSphere` is given vectors
of at least `Dimension` entries, it returns an image in which every voxel is assigned and holds
0 or 1; both values lie in the range of every integer type of the six, so storing the grid
under the clamp policy or under the wrap policy gives the same grid. -/
theorem CreateSphere_voxels_zero_or_one {D : Type} (A : DoubleArithmetic D) (type : CxxType) (N : Nat)
    (w : String → Image D → Option ExceptionObject) (file : String) (size : List Nat)
    (spacing center : List D) (radius : D) (htype : type ∈ supportedTypes)
    (hs : N ≤ size.length) (hsp : N ≤ spacing.length) (hc : N ≤ center.length) :
    ∃ r : SphereRun D, CreateSphere A type N w file size spacing center radius = some r ∧
      r.image.pixelType = type ∧
      (∀ cell ∈ r.image.buffer, cell = some 0 ∨ cell = some 1) ∧
      (∀ v : Int, v = 0 ∨ v = 1 →
        ∀ lo hi, integerRange type = some (lo, hi) → lo ≤ v ∧ v ≤ hi) ∧
      r.image.buffer.map (Option.map (storeClamp type)) = r.image.buffer ∧
      r.image.buffer.map (Option.map (storeWrap type)) = r.image.buffer ∧
      r.image.buffer.map (Option.map (storeClamp type)) =
        r.image.buffer.map (Option.map (storeWrap type)) := by
  obtain ⟨r, hr, hty, -, -, -, -, -, -, -, hlen, hbuf⟩ :=
    CreateSphere_run A type N w file size spacing center radius hs hsp hc
  have hcell : ∀ cell ∈ r.image.buffer, cell = some 0 ∨ cell = some 1 := by
    intro cell hmem
    obtain ⟨k, hk, hget⟩ := List.getElem_of_mem hmem
    have h := hbuf k (hlen ▸ hk)
    rw [List.getElem?_eq_getElem hk, hget] at h
    rw [Option.some.inj h]
    rcases boolToPixel_cases (Evaluate A (center.take N) radius
      (TransformIndexToPhysicalPoint A (List.replicate N A.zero) (spacing.take N)
        (ComputeIndex (size.take N) k))) with e | e <;> simp [e]
  have hclamp : r.image.buffer.map (Option.map (storeClamp type)) = r.image.buffer := by
    conv_rhs => rw [← List.map_id r.image.buffer]
    apply List.map_congr_left
    intro cell hmem
    rcases hcell cell hmem with rfl | rfl
    · simp [(store_zero_one type htype 0 (Or.inl rfl)).1]
    · simp [(store_zero_one type htype 1 (Or.inr rfl)).1]
  have hwrap : r.image.buffer.map (Option.map (storeWrap type)) = r.image.buffer := by
    conv_rhs => rw [← List.map_id r.image.buffer]
    apply List.map_congr_left
    intro cell hmem
    rcases hcell cell hmem with rfl | rfl
    · simp [(store_zero_one type htype 0 (Or.inl rfl)).2.1]
    · simp [(store_zero_one type htype 1 (Or.inr rfl)).2.1]
  exact ⟨r, hr, hty, hcell, fun v hv => (store_zero_one type htype v hv).2.2, hclamp, hwrap,
    hclamp.trans hwrap.symm⟩

/-- Witness for C10: a 3 x 2 image of `unsigned char`. -/
theorem CreateSphere_voxels_zero_or_one_witness :
    ∃ r : SphereRun ℚ,
      CreateSphere exactArithmetic CxxType.uchar 2 writerOk "disk.mhd" [3, 2] [1, 1] [1, 1] 1 =
        some r ∧
      r.image.pixelType = CxxType.uchar ∧
      (∀ cell ∈ r.image.buffer, cell = some 0 ∨ cell = some 1) ∧
      (∀ v : Int, v = 0 ∨ v = 1 →
        ∀ lo hi, integerRange CxxType.uchar = some (lo, hi) → lo ≤ v ∧ v ≤ hi) ∧
      r.image.buffer.map (Option.map (storeClamp CxxType.uchar)) = r.image.buffer ∧
      r.image.buffer.map (Option.map (storeWrap CxxType.uchar)) = r.image.buffer ∧
      r.image.buffer.map (Option.map (storeClamp CxxType.uchar)) =
        r.image.buffer.map (Option.map (storeWrap CxxType.uchar)) :=
  CreateSphere_voxels_zero_or_one exactArithmetic CxxType.uchar 2 writerOk "disk.mhd" [3, 2] [1, 1] [1, 1] 1
    (by decide) (by decide) (by decide) (by decide)

end PxCreateSphere
